import Mathlib

/-!
Verification development for the San Jose transit-equity ETL pipeline
(`code/functions.py`, `code/diridon_utils.py`, `code/01_data_pipeline.py`).

Shallow embedding conventions:
* a geometry is a finite set of unit cells (`Finset Nat`); intersection area is
  the cardinality of the cell intersection, `intersects` is nonempty
  intersection, and the shapely `within` is nonempty subset (shapely returns
  `False` for an empty geometry contained in anything);
* a GeoDataFrame is a `Layer`: a CRS tag plus a list of rows, in order;
* `to_crs` is modelled by an abstract cell reprojection
  `proj : sourceCrs → targetCrs → cells → cells`, passed as a parameter;
* pandas NaN-able columns are `Option` values; a raised exception is
  `Except.error`.
-/

/-- Geometry as a finite set of unit cells; area = cardinality. -/
abbrev Geom := Finset Nat

/-- Abstract coordinate reprojection: source CRS, target CRS, cells. -/
abbrev Reproj := Nat → Nat → Geom → Geom

/-- Identity reprojection, used for concrete witnesses. -/
def projId : Reproj := fun _ _ g => g

/-- Shapely `a.intersects(b)` in the cell model. -/
def intersectsGeom (a b : Geom) : Prop := (a ∩ b).Nonempty

instance : DecidablePred fun p : Geom × Geom => intersectsGeom p.1 p.2 :=
  fun _ => Finset.decidableNonempty

instance (a b : Geom) : Decidable (intersectsGeom a b) := Finset.decidableNonempty

/-- Shapely `a.within(b)` in the cell model: nonempty containment. -/
def withinGeom (a b : Geom) : Prop := a.Nonempty ∧ a ⊆ b

instance (a b : Geom) : Decidable (withinGeom a b) := instDecidableAnd

/-- Row of the parcels table: `PARCELID` and the parcel polygon. -/
structure Parcel where
  pid : Nat
  geom : Geom
deriving DecidableEq

/-- Row of the zoning-districts table: the `ZONING` code (possibly missing)
and the district polygon. -/
structure ZRow where
  code : Option String
  geom : Geom
deriving DecidableEq

/-- GeoDataFrame: a coordinate reference system tag plus ordered rows. -/
structure Layer (α : Type) where
  crs : Nat
  rows : List α
deriving DecidableEq

/-- Model of `zoning.to_crs(c)`: retag the layer and reproject each geometry. -/
def zoningToCrs (proj : Reproj) (c : Nat) (L : Layer ZRow) : Layer ZRow :=
  ⟨c, L.rows.map fun z => ⟨z.code, proj L.crs c z.geom⟩⟩

/-- Model of lines 162-164 of `functions.py`: inside `sjoin_parcels_to_zd`,
`if parcels.crs != zoning.crs: zoning = zoning.to_crs(parcels.crs)`. -/
def reconciledZoning (proj : Reproj) (parcels : Layer Parcel) (zoning : Layer ZRow) :
    Layer ZRow :=
  if parcels.crs ≠ zoning.crs then zoningToCrs proj parcels.crs zoning else zoning

/-- Zoning attribute columns carried onto a joined row (the `ZONING` code). -/
structure ZAttrs where
  zoningCode : Option String
deriving DecidableEq

/-- Row of the frame produced by `gpd.sjoin(parcels, zoning, how="left",
predicate="intersects")`: the left index, the parcel columns, the
`index_right` column (None when the parcel matched no district) and the
joined zoning attribute columns (None in the same case). -/
structure JRow where
  leftIdx : Nat
  parcel : Parcel
  zidx : Option Nat
  zattrs : Option ZAttrs
deriving DecidableEq

/-- Zoning rows (with their positional index) intersecting a parcel. -/
def matchesFor (p : Parcel) (zoning : List ZRow) : List (Nat × ZRow) :=
  zoning.enum.filter fun iz => decide (intersectsGeom p.geom iz.2.geom)

/-- Rows a single left row contributes to a left spatial join: one row per
intersecting district, or a single null-matched row when there is none. -/
def rowsFor (i : Nat) (p : Parcel) (zoning : List ZRow) : List JRow :=
  if matchesFor p zoning = [] then [⟨i, p, none, none⟩]
  else (matchesFor p zoning).map fun iz => ⟨i, p, some iz.1, some ⟨iz.2.code⟩⟩

/-- Model of `gpd.sjoin(parcels, zoning, how="left", predicate="intersects")`
(line 167 of `functions.py`). -/
def sjoinLeftIntersects (parcels : List Parcel) (zoning : List ZRow) : List JRow :=
  parcels.enum.flatMap fun ip => rowsFor ip.1 ip.2 zoning

/-- Model of `get_overlap_area` (lines 171-174 of `functions.py`): zero for a
null match, otherwise the area of the intersection with the zoning geometry
looked up through `index_right`. The out-of-range arm is unreachable for rows
built by the join. -/
def get_overlap_area (zoning : Layer ZRow) (r : JRow) : Nat :=
  match r.zidx with
  | none => 0
  | some j =>
    match zoning.rows[j]? with
    | some z => (r.parcel.geom ∩ z.geom).card
    | none => 0

/-- Row returned by `sjoin_parcels_to_zd`: the `index_right` column has been
dropped, and `overlap_area` is present only on the `how="largest"` path. -/
structure OutRow where
  leftIdx : Nat
  parcel : Parcel
  zattrs : Option ZAttrs
  overlap_area : Option Nat
deriving DecidableEq

/-- Drop the `index_right` column (line 185) and record `overlap_area`. -/
def dropIR (r : JRow) (area : Option Nat) : OutRow :=
  ⟨r.leftIdx, r.parcel, r.zattrs, area⟩

/-- Rows of `sjoin_parcels_to_zd(parcels, zoning, how="largest")`: the left
join with an `overlap_area` column computed for every row. -/
def largestRows (proj : Reproj) (parcels : Layer Parcel) (zoning : Layer ZRow) :
    List OutRow :=
  (sjoinLeftIntersects parcels.rows (reconciledZoning proj parcels zoning).rows).map
    fun r => dropIR r (some (get_overlap_area (reconciledZoning proj parcels zoning) r))

/-- Keep-first deduplication by a key, given the keys already seen; this is
`drop_duplicates(keep="first")` and `~index.duplicated(keep="first")`. -/
def dedupFrom [DecidableEq β] (key : α → β) (seen : List β) : List α → List α
  | [] => []
  | x :: xs =>
    if key x ∈ seen then dedupFrom key seen xs
    else x :: dedupFrom key (key x :: seen) xs

/-- Keep-first deduplication by a key. -/
def dedupBy [DecidableEq β] (key : α → β) (l : List α) : List α :=
  dedupFrom key [] l

/-- Rows of `sjoin_parcels_to_zd(parcels, zoning, how="first")`: keep only the
first row of each left index (line 180). -/
def firstRows (proj : Reproj) (parcels : Layer Parcel) (zoning : Layer ZRow) :
    List OutRow :=
  (dedupBy (fun r => r.leftIdx)
      (sjoinLeftIntersects parcels.rows (reconciledZoning proj parcels zoning).rows)).map
    fun r => dropIR r none

/-- Message of the `ValueError` raised on line 183 of `functions.py`. -/
def howErr : String := "how must be largest or first"

/-- Model of `sjoin_parcels_to_zd` (lines 160-185 of `functions.py`). -/
def sjoin_parcels_to_zd (proj : Reproj) (parcels : Layer Parcel) (zoning : Layer ZRow)
    (how : String) : Except String (Layer OutRow) :=
  if how = "largest" then .ok ⟨parcels.crs, largestRows proj parcels zoning⟩
  else if how = "first" then .ok ⟨parcels.crs, firstRows proj parcels zoning⟩
  else .error howErr

/-- Comparison used by `sort_values(["PARCELID", "overlap_area"],
ascending=[True, False])`: `PARCELID` ascending, then `overlap_area`
descending. -/
def pzLe (a b : OutRow) : Bool :=
  decide (a.parcel.pid < b.parcel.pid) ||
    (decide (a.parcel.pid = b.parcel.pid) &&
      decide (b.overlap_area.getD 0 ≤ a.overlap_area.getD 0))

/-- Insert an element into a list so that a sorted list stays sorted. -/
def insertSorted (le : α → α → Bool) (x : α) : List α → List α
  | [] => [x]
  | y :: ys => if le x y then x :: y :: ys else y :: insertSorted le x ys

/-- Sort a list by a boolean comparison (stable insertion sort, modelling
pandas `sort_values`). -/
def sortBy (le : α → α → Bool) : List α → List α
  | [] => []
  | x :: xs => insertSorted le x (sortBy le xs)

/-- Model of `join_parcels_zoning` (lines 58-79 of `functions.py`): the
`how="largest"` spatial join, sorted by parcel id ascending and overlap area
descending, keeping the first row of each `PARCELID`. -/
def join_parcels_zoning (proj : Reproj) (parcels : Layer Parcel) (zoning : Layer ZRow) :
    Except String (Layer OutRow) :=
  (sjoin_parcels_to_zd proj parcels zoning "largest").map fun joined =>
    ⟨joined.crs, dedupBy (fun r => r.parcel.pid) (sortBy pzLe joined.rows)⟩

/-- Row of the census-tract table fed to `attach_tract_data_to_parcels`:
`GEOID`, the tract polygon, and the tract-level data columns as an ordered
association list of column name and value. -/
structure TractRow where
  geoid : Nat
  geom : Geom
  fields : List (String × Rat)
deriving DecidableEq

/-- Census-tract GeoDataFrame: CRS, the column names present in the table,
and the rows. -/
structure TractLayer where
  crs : Nat
  cols : List String
  rows : List TractRow
deriving DecidableEq

/-- Default `tract_fields` of `attach_tract_data_to_parcels`
(lines 88-102 of `functions.py`). -/
def defaultTractFields : List String :=
  ["public_transit_pct", "walked_pct", "drove_pct", "pct_renters",
   "vacancy_rate", "median_rent", "median_income", "pct_white", "pct_black",
   "pct_asian", "pct_latino", "pct_college_plus"]

/-- Model of `tracts_gdf.to_crs(c)`. -/
def tractsToCrs (proj : Reproj) (c : Nat) (L : TractLayer) : TractLayer :=
  ⟨c, L.cols, L.rows.map fun t => ⟨t.geoid, proj L.crs c t.geom, t.fields⟩⟩

/-- Model of lines 104-106 of `functions.py`: inside
`attach_tract_data_to_parcels`,
`if parcels_gdf.crs != tracts_gdf.crs: tracts_gdf = tracts_gdf.to_crs(...)`. -/
def reconciledTracts (proj : Reproj) (parcels : Layer Parcel) (tracts : TractLayer) :
    TractLayer :=
  if parcels.crs ≠ tracts.crs then tractsToCrs proj parcels.crs tracts else tracts

/-- Tract columns attached to a parcel by the `within` join: the `GEOID` and
the kept tract-level fields. -/
structure TractData where
  geoid : Nat
  fields : List (String × Rat)
deriving DecidableEq

/-- Row of the output of `attach_tract_data_to_parcels`: the parcel columns
plus the attached tract columns, `none` when the parcel lies within no tract
(every attached value is NaN in that case). -/
structure PTRow where
  parcel : Parcel
  tract : Option TractData
deriving DecidableEq

/-- Indicator columns of line 109 of `functions.py` that survive the
availability filter: `[f for f in tract_fields if f in tracts_gdf.columns]`. -/
def keptTractFields (tracts : TractLayer) (tract_fields : Option (List String)) :
    List String :=
  (tract_fields.getD defaultTractFields).filter fun f => f ∈ tracts.cols

/-- Restriction of a tract row to geometry, `GEOID` and the kept fields
(line 110 of `functions.py`). -/
def tractSubsetRow (keep : List String) (t : TractRow) : TractRow :=
  ⟨t.geoid, t.geom, t.fields.filter fun kv => kv.1 ∈ keep⟩

/-- Tract rows containing a parcel (the `predicate="within"` matches). -/
def tractMatches (tr : TractLayer) (p : Parcel) : List TractRow :=
  tr.rows.filter fun t => decide (withinGeom p.geom t.geom)

/-- Rows one parcel contributes to the left `within` join: one row per
containing tract of the subset table, or a single null-matched row. -/
def attachRowsFor (keep : List String) (tr : TractLayer) (p : Parcel) : List PTRow :=
  if tractMatches tr p = [] then [⟨p, none⟩]
  else (tractMatches tr p).map fun t =>
    ⟨p, some ⟨(tractSubsetRow keep t).geoid, (tractSubsetRow keep t).fields⟩⟩

/-- Model of `attach_tract_data_to_parcels` (lines 81-128 of `functions.py`):
reconcile the CRS, keep `GEOID` plus the requested available columns, left
spatial join with `predicate="within"`, drop `index_right`. The `GEOID`
suffix rename of lines 124-126 is the identity here because columns are
structured. -/
def attach_tract_data_to_parcels (proj : Reproj) (parcels : Layer Parcel)
    (tracts : TractLayer) (tract_fields : Option (List String)) : Layer PTRow :=
  ⟨parcels.crs,
    parcels.rows.flatMap
      (attachRowsFor
        (keptTractFields (reconciledTracts proj parcels tracts) tract_fields)
        (reconciledTracts proj parcels tracts))⟩

/-- Value of a pandas float column entry: a finite rational, NaN, or a signed
infinity. Integer census counts divided by integer counts follow IEEE-754:
`x / 0` is NaN when `x = 0` and `±inf` otherwise. -/
inductive PdVal where
  | val (q : Rat)
  | nan
  | inf
  | ninf
deriving DecidableEq

/-- Pandas element-wise division of two count columns. -/
def pdDiv (num denom : Rat) : PdVal :=
  if denom ≠ 0 then .val (num / denom)
  else if 0 < num then .inf
  else if num < 0 then .ninf
  else .nan

/-- Pandas multiplication of a float column by a positive scalar constant. -/
def pdMulPos (x : PdVal) (c : Rat) : PdVal :=
  match x with
  | .val q => .val (q * c)
  | .nan => .nan
  | .inf => if 0 < c then .inf else if c < 0 then .ninf else .nan
  | .ninf => if 0 < c then .ninf else if c < 0 then .inf else .nan

/-- Percentage of a numerator count over a denominator count, as computed by
`df[num] / df[denom] * 100` throughout `compute_acs_indicators`. -/
def pctCol (num denom : Rat) : PdVal :=
  pdMulPos (pdDiv num denom) 100

/-- Raw ACS counts of one tract row, as pulled by `pull_acs_data` (the
variables `compute_acs_indicators` reads). -/
structure AcsRow where
  total_renter_households : Rat
  rent_30_34 : Rat
  rent_35_39 : Rat
  rent_40_49 : Rat
  rent_50_plus : Rat
  poverty_universe : Rat
  below_poverty : Rat
  total_households : Rat
  no_vehicle : Rat
  tenure_total : Rat
  owner_occupied : Rat
  renter_occupied : Rat
  total_workers : Rat
  drove : Rat
  public_transit_total : Rat
  bike : Rat
  walked : Rat
  commuter_rail : Rat
  light_rail : Rat
  worked_home : Rat
  units_total : Rat
  units_1_detached : Rat
  units_1_attached : Rat
  units_2 : Rat
  units_3_4 : Rat
  units_5_9 : Rat
  units_10_19 : Rat
  units_20_49 : Rat
  units_50_plus : Rat
  units_mobile : Rat
  units_other : Rat
  housing_units_total : Rat
  housing_units_vacant : Rat
  race_total : Rat
  white : Rat
  black : Rat
  asian : Rat
  hisp_total : Rat
  hispanic : Rat
  edu_total : Rat
  bachelors : Rat
  masters : Rat
  professional : Rat
  doctorate : Rat
deriving DecidableEq

/-- Derived columns added by `compute_acs_indicators`. -/
structure AcsInd where
  rent_burdened_count : Rat
  rent_burdened_pct : PdVal
  poverty_rate : PdVal
  pct_renters : PdVal
  pct_homeowners : PdVal
  no_vehicle_pct : PdVal
  public_transit_pct : PdVal
  drove_pct : PdVal
  bike_pct : PdVal
  walked_pct : PdVal
  commuter_rail_pct : PdVal
  light_rail_pct : PdVal
  worked_home_pct : PdVal
  single_family_units : Rat
  small_multifamily_units : Rat
  medium_multifamily_units : Rat
  large_multifamily_units : Rat
  other_units : Rat
  pct_single_family : PdVal
  pct_small_multifamily : PdVal
  pct_medium_multifamily : PdVal
  pct_large_multifamily : PdVal
  pct_other : PdVal
  vacancy_rate : PdVal
  pct_white : PdVal
  pct_black : PdVal
  pct_asian : PdVal
  pct_latino : PdVal
  college_plus : Rat
  pct_college_plus : PdVal
deriving DecidableEq

/-- Model of `compute_acs_indicators` (lines 372-425 of `functions.py`). -/
def compute_acs_indicators (df : AcsRow) : AcsInd :=
  let rent_burdened_count :=
    df.rent_30_34 + df.rent_35_39 + df.rent_40_49 + df.rent_50_plus
  let single_family_units := df.units_1_detached + df.units_1_attached
  let small_multifamily_units := df.units_2 + df.units_3_4
  let medium_multifamily_units := df.units_5_9 + df.units_10_19
  let large_multifamily_units := df.units_20_49 + df.units_50_plus
  let other_units := df.units_mobile + df.units_other
  let college_plus := df.bachelors + df.masters + df.professional + df.doctorate
  { rent_burdened_count := rent_burdened_count
    rent_burdened_pct := pctCol rent_burdened_count df.total_renter_households
    poverty_rate := pctCol df.below_poverty df.poverty_universe
    pct_renters := pctCol df.renter_occupied df.tenure_total
    pct_homeowners := pctCol df.owner_occupied df.tenure_total
    no_vehicle_pct := pctCol df.no_vehicle df.total_households
    public_transit_pct := pctCol df.public_transit_total df.total_workers
    drove_pct := pctCol df.drove df.total_workers
    bike_pct := pctCol df.bike df.total_workers
    walked_pct := pctCol df.walked df.total_workers
    commuter_rail_pct := pctCol df.commuter_rail df.total_workers
    light_rail_pct := pctCol df.light_rail df.total_workers
    worked_home_pct := pctCol df.worked_home df.total_workers
    single_family_units := single_family_units
    small_multifamily_units := small_multifamily_units
    medium_multifamily_units := medium_multifamily_units
    large_multifamily_units := large_multifamily_units
    other_units := other_units
    pct_single_family := pctCol single_family_units df.units_total
    pct_small_multifamily := pctCol small_multifamily_units df.units_total
    pct_medium_multifamily := pctCol medium_multifamily_units df.units_total
    pct_large_multifamily := pctCol large_multifamily_units df.units_total
    pct_other := pctCol other_units df.units_total
    vacancy_rate := pctCol df.housing_units_vacant df.housing_units_total
    pct_white := pctCol df.white df.race_total
    pct_black := pctCol df.black df.race_total
    pct_asian := pctCol df.asian df.race_total
    pct_latino := pctCol df.hispanic df.hisp_total
    college_plus := college_plus
    pct_college_plus := pctCol college_plus df.edu_total }

/-- Zoning abbreviation dictionary (lines 477-485 of `functions.py`). -/
def zoning_abb : List (String × String) :=
  [("UV", "Urban Village"),
   ("UVC", "Urban Village Commercial"),
   ("UR", "Urban Residential"),
   ("TR", "Transit Residential"),
   ("MU", "Mixed Use"),
   ("MUC", "Mixed Use Commercial"),
   ("MUN", "Municipal/Neighborhood Mixed Use")]

/-- Model of Python `str.strip()`: drop whitespace from both ends. -/
def pyStrip (s : String) : String :=
  ⟨((s.data.dropWhile Char.isWhitespace).reverse.dropWhile Char.isWhitespace).reverse⟩

/-- Model of `abbreviate_zoning` (lines 490-493 of `functions.py`): a missing
code gives Unknown, otherwise look up the stripped code with default Other. -/
def abbreviate_zoning (code : Option String) : String :=
  match code with
  | none => "Unknown"
  | some s => (zoning_abb.lookup (pyStrip s)).getD "Other"

/-- Zoning classification dictionary (lines 502-597 of `functions.py`). -/
def zoning_classification : List (String × String) :=
  [("R-1-1", "Residential"), ("R-1-2", "Residential"), ("R-1-5", "Residential"),
   ("R-1-10", "Residential"), ("R-1-8", "Residential"), ("R-1-RR", "Residential"),
   ("R-2", "Residential"), ("R-M", "Residential"), ("R-MH", "Residential"),
   ("MS-C", "Residential"), ("MS-G", "Residential"),
   ("R-2(PD)", "Residential"), ("R-1-1(PD)", "Residential"),
   ("R-1-2(PD)", "Residential"), ("R-1-5(PD)", "Residential"),
   ("R-1-5(CL)", "Residential"), ("R-1-8(PD)", "Residential"),
   ("R-1-8(CL)", "Residential"), ("R-M(PD)", "Residential"),
   ("R-M(CL)", "Residential"),
   ("C-1", "Commercial"), ("C-2", "Commercial"), ("CP", "Commercial"),
   ("CN", "Commercial"), ("CG", "Commercial"), ("CR", "Commercial"),
   ("CO", "Commercial"), ("CIC", "Commercial"), ("TEC", "Commercial"),
   ("DC", "Commercial"), ("DC-NT1", "Commercial"),
   ("CG(PD)", "Commercial"), ("CN(PD)", "Commercial"), ("CP(PD)", "Commercial"),
   ("CIC(PD)", "Commercial"), ("CO(PD)", "Commercial"), ("DC(PD)", "Commercial"),
   ("TEC(PD)", "Commercial"), ("LI(PD)", "Industrial"), ("HI(PD)", "Industrial"),
   ("IP(PD)", "Industrial"),
   ("LI", "Industrial"), ("HI", "Industrial"), ("IP", "Industrial"),
   ("MUN", "Mixed Use"), ("MUC", "Mixed Use"), ("UV", "Mixed Use"),
   ("UVC", "Mixed Use"), ("UR", "Mixed Use"), ("TR", "Mixed Use"),
   ("MUN(PD)", "Mixed Use"), ("UR(PD)", "Mixed Use"),
   ("OS", "Special Purpose"), ("A", "Special Purpose"), ("PQ", "Special Purpose"),
   ("PQP", "Special Purpose"), ("PF", "Special Purpose"), ("PI", "Special Purpose"),
   ("WATER", "Special Purpose"),
   ("OS(PD)", "Special Purpose"), ("A(PD)", "Special Purpose"),
   ("PQP(PD)", "Special Purpose"),
   ("OTHER", "Other")]

/-- Model of `classify_zoning` (lines 602-605 of `functions.py`). -/
def classify_zoning (code : Option String) : String :=
  match code with
  | none => "Unknown"
  | some s => (zoning_classification.lookup (pyStrip s)).getD "Other"

/-- Parcel row as seen by `summarize_parcels` in `diridon_utils.py`: the
parcel polygon (in EPSG:3857) and the `zoning_class` column produced by the
pipeline. -/
structure PMRow where
  geom : Geom
  zoning_class : String
deriving DecidableEq

/-- Abstract centroid of a cell geometry. -/
def centroidOf (g : Geom) : Nat :=
  g.sum id / max g.card 1

/-- Counts reported by `summarize_parcels`. -/
structure ParcelSummary where
  total_parcels : Nat
  uv_parcels : Nat
deriving DecidableEq

/-- Model of `summarize_parcels` (lines 75-98 of `diridon_utils.py`): keep the
parcels whose centroid falls inside the 1-mile buffer, select the rows whose
`zoning_class` equals the string Urban Village, and report both counts. -/
def summarize_parcels (parcels : List PMRow) (buffer_1m : Finset Nat) :
    List PMRow × List PMRow × ParcelSummary :=
  let within_1m := parcels.filter fun p => centroidOf p.geom ∈ buffer_1m
  let uv := within_1m.filter fun p => p.zoning_class = "Urban Village"
  (within_1m, uv, ⟨within_1m.length, uv.length⟩)

/-! Helper lemmas about keep-first deduplication. -/

theorem mem_of_mem_dedupFrom [DecidableEq β] {key : α → β} {seen : List β}
    {l : List α} {y : α} (h : y ∈ dedupFrom key seen l) : y ∈ l := by
  induction l generalizing seen with
  | nil => simp [dedupFrom] at h
  | cons a t ih =>
    by_cases ha : key a ∈ seen
    · simp only [dedupFrom, if_pos ha] at h
      exact List.mem_cons_of_mem _ (ih h)
    · simp only [dedupFrom, if_neg ha, List.mem_cons] at h
      rcases h with h | h
      · simp [h]
      · exact List.mem_cons_of_mem _ (ih h)

theorem key_not_mem_of_mem_dedupFrom [DecidableEq β] {key : α → β} {seen : List β}
    {l : List α} {y : α} (h : y ∈ dedupFrom key seen l) : key y ∉ seen := by
  induction l generalizing seen with
  | nil => simp [dedupFrom] at h
  | cons a t ih =>
    by_cases ha : key a ∈ seen
    · simp only [dedupFrom, if_pos ha] at h
      exact ih h
    · simp only [dedupFrom, if_neg ha, List.mem_cons] at h
      rcases h with h | h
      · subst h; exact ha
      · intro hy
        exact ih h (List.mem_cons_of_mem _ hy)

theorem pairwise_ne_dedupFrom [DecidableEq β] (key : α → β) (seen : List β)
    (l : List α) :
    (dedupFrom key seen l).Pairwise fun a b => key a ≠ key b := by
  induction l generalizing seen with
  | nil => simp [dedupFrom]
  | cons a t ih =>
    by_cases ha : key a ∈ seen
    · simp only [dedupFrom, if_pos ha]
      exact ih seen
    · simp only [dedupFrom, if_neg ha]
      refine List.Pairwise.cons ?_ (ih _)
      intro b hb hab
      exact key_not_mem_of_mem_dedupFrom hb (by simp [hab])

theorem exists_mem_dedupFrom [DecidableEq β] {key : α → β} {seen : List β}
    {l : List α} {x : α} (hx : x ∈ l) (hs : key x ∉ seen) :
    ∃ y ∈ dedupFrom key seen l, key y = key x := by
  induction l generalizing seen with
  | nil => simp at hx
  | cons a t ih =>
    by_cases ha : key a ∈ seen
    · rcases List.mem_cons.mp hx with rfl | hx
      · exact absurd ha hs
      · simpa only [dedupFrom, if_pos ha] using ih hx hs
    · simp only [dedupFrom, if_neg ha]
      rcases List.mem_cons.mp hx with rfl | hx
      · exact ⟨x, List.mem_cons_self x _, rfl⟩
      · by_cases hk : key x = key a
        · exact ⟨a, List.mem_cons_self a _, hk.symm⟩
        · have hs' : key x ∉ key a :: seen := by simp [hk, hs]
          obtain ⟨y, hy, hky⟩ := ih hx hs'
          exact ⟨y, List.mem_cons_of_mem _ hy, hky⟩

theorem dedupFrom_pairwise_rel [DecidableEq β] {key : α → β} {R : α → α → Prop}
    {seen : List β} {l : List α} {y x : α}
    (hp : l.Pairwise R) (hy : y ∈ dedupFrom key seen l) (hx : x ∈ l)
    (hk : key x = key y) : x = y ∨ R y x := by
  induction l generalizing seen with
  | nil => simp at hx
  | cons a t ih =>
    have hhd := (List.pairwise_cons.mp hp).1
    have htl := (List.pairwise_cons.mp hp).2
    by_cases ha : key a ∈ seen
    · simp only [dedupFrom, if_pos ha] at hy
      rcases List.mem_cons.mp hx with rfl | hx
      · exact absurd (hk ▸ ha) (key_not_mem_of_mem_dedupFrom hy)
      · exact ih htl hy hx
    · simp only [dedupFrom, if_neg ha, List.mem_cons] at hy
      rcases hy with rfl | hy
      · rcases List.mem_cons.mp hx with rfl | hx
        · exact Or.inl rfl
        · exact Or.inr (hhd x hx)
      · rcases List.mem_cons.mp hx with rfl | hx
        · have hz := key_not_mem_of_mem_dedupFrom hy
          simp only [List.mem_cons, not_or] at hz
          exact absurd hk.symm hz.1
        · exact ih htl hy hx

theorem find?_of_mem_dedupFrom [DecidableEq β] {key : α → β} {seen : List β}
    {l : List α} {y : α} (hy : y ∈ dedupFrom key seen l) :
    l.find? (fun x => decide (key x = key y)) = some y := by
  induction l generalizing seen with
  | nil => simp [dedupFrom] at hy
  | cons a t ih =>
    by_cases ha : key a ∈ seen
    · simp only [dedupFrom, if_pos ha] at hy
      have hne : ¬ key a = key y := fun he => key_not_mem_of_mem_dedupFrom hy (he ▸ ha)
      rw [List.find?_cons_of_neg _ (by simpa using hne)]
      exact ih hy
    · simp only [dedupFrom, if_neg ha, List.mem_cons] at hy
      rcases hy with rfl | hy
      · rw [List.find?_cons_of_pos _ (by simp)]
      · have hz := key_not_mem_of_mem_dedupFrom hy
        simp only [List.mem_cons, not_or] at hz
        rw [List.find?_cons_of_neg _ (by simpa using fun he => hz.1 he.symm)]
        exact ih hy

/-! Helper lemmas about the left spatial join. -/

theorem mem_sjoinLeftIntersects {parcels : List Parcel} {zoning : List ZRow}
    {r : JRow} :
    r ∈ sjoinLeftIntersects parcels zoning ↔
      ∃ ip ∈ parcels.enum, r ∈ rowsFor ip.1 ip.2 zoning := by
  simp [sjoinLeftIntersects]

theorem parcel_of_mem_rowsFor {i : Nat} {p : Parcel} {zoning : List ZRow}
    {r : JRow} (h : r ∈ rowsFor i p zoning) : r.parcel = p ∧ r.leftIdx = i := by
  unfold rowsFor at h
  by_cases hm : matchesFor p zoning = []
  · simp only [if_pos hm, List.mem_singleton] at h
    subst h; exact ⟨rfl, rfl⟩
  · simp only [if_neg hm, List.mem_map] at h
    obtain ⟨iz, _, rfl⟩ := h
    exact ⟨rfl, rfl⟩

theorem shape_of_mem_rowsFor {i : Nat} {p : Parcel} {zoning : List ZRow}
    {r : JRow} (h : r ∈ rowsFor i p zoning) :
    r = ⟨i, p, none, none⟩ ∨
      ∃ jz ∈ matchesFor p zoning, r = ⟨i, p, some jz.1, some ⟨jz.2.code⟩⟩ := by
  unfold rowsFor at h
  by_cases hm : matchesFor p zoning = []
  · simp only [if_pos hm, List.mem_singleton] at h
    exact Or.inl h
  · simp only [if_neg hm, List.mem_map] at h
    obtain ⟨iz, hiz, rfl⟩ := h
    exact Or.inr ⟨iz, hiz, rfl⟩

theorem mem_matchesFor {p : Parcel} {zoning : List ZRow} {jz : Nat × ZRow} :
    jz ∈ matchesFor p zoning ↔
      jz ∈ zoning.enum ∧ intersectsGeom p.geom jz.2.geom := by
  simp [matchesFor, List.mem_filter]

theorem rowsFor_ne_nil (i : Nat) (p : Parcel) (zoning : List ZRow) :
    rowsFor i p zoning ≠ [] := by
  unfold rowsFor
  by_cases hm : matchesFor p zoning = []
  · simp [hm]
  · simp [hm]

theorem exists_row_of_mem_parcels {parcels : List Parcel} {zoning : List ZRow}
    {p : Parcel} (hp : p ∈ parcels) :
    ∃ r ∈ sjoinLeftIntersects parcels zoning, r.parcel = p := by
  obtain ⟨i, hi⟩ := List.mem_iff_getElem?.mp hp
  have hip : (i, p) ∈ parcels.enum := List.mk_mem_enum_iff_getElem?.mpr hi
  obtain ⟨r, hr⟩ := List.exists_mem_of_ne_nil _ (rowsFor_ne_nil i p zoning)
  exact ⟨r, mem_sjoinLeftIntersects.mpr ⟨(i, p), hip, hr⟩,
    (parcel_of_mem_rowsFor hr).1⟩

theorem get_overlap_area_of_match {zoning : Layer ZRow} {i j : Nat} {p : Parcel}
    {z : ZRow} (hz : zoning.rows[j]? = some z) (c : Option ZAttrs) :
    get_overlap_area zoning ⟨i, p, some j, c⟩ = (p.geom ∩ z.geom).card := by
  simp [get_overlap_area, hz]

theorem zattrs_or_zero_of_mem_largestRows {proj : Reproj} {parcels : Layer Parcel}
    {zoning : Layer ZRow} {c : OutRow} (hc : c ∈ largestRows proj parcels zoning) :
    c.zattrs.isSome ∨ c.overlap_area = some 0 := by
  simp only [largestRows, List.mem_map] at hc
  obtain ⟨r, hr, rfl⟩ := hc
  obtain ⟨ip, _, hrow⟩ := mem_sjoinLeftIntersects.mp hr
  rcases shape_of_mem_rowsFor hrow with rfl | ⟨jz, _, rfl⟩
  · exact Or.inr (by simp [dropIR, get_overlap_area])
  · exact Or.inl (by simp [dropIR])

/-! Helper lemmas about the sort comparison. -/

theorem pzLe_trans (a b c : OutRow) (hab : pzLe a b) (hbc : pzLe b c) :
    pzLe a c := by
  simp only [pzLe, Bool.or_eq_true, Bool.and_eq_true, decide_eq_true_eq] at *
  omega

theorem pzLe_total (a b : OutRow) : pzLe a b = true ∨ pzLe b a = true := by
  simp only [pzLe, Bool.or_eq_true, Bool.and_eq_true, decide_eq_true_eq]
  omega

/-! Helper lemmas about the insertion sort. -/

theorem insertSorted_perm (le : α → α → Bool) (x : α) (l : List α) :
    List.Perm (insertSorted le x l) (x :: l) := by
  induction l with
  | nil => exact List.Perm.refl _
  | cons y ys ih =>
    by_cases h : le x y
    · simp [insertSorted, h]
    · simp only [insertSorted, if_neg h]
      exact (List.Perm.cons y ih).trans (List.Perm.swap x y ys)

theorem sortBy_perm (le : α → α → Bool) (l : List α) :
    List.Perm (sortBy le l) l := by
  induction l with
  | nil => exact List.Perm.refl _
  | cons x xs ih =>
    exact (insertSorted_perm le x (sortBy le xs)).trans (List.Perm.cons x ih)

theorem pairwise_insertSorted {le : α → α → Bool}
    (ltrans : ∀ a b c, le a b = true → le b c = true → le a c = true)
    (ltotal : ∀ a b, le a b = true ∨ le b a = true)
    (x : α) {l : List α} (h : l.Pairwise fun a b => le a b = true) :
    (insertSorted le x l).Pairwise fun a b => le a b = true := by
  induction l with
  | nil => simp [insertSorted]
  | cons y ys ih =>
    have hhd := (List.pairwise_cons.mp h).1
    have htl := (List.pairwise_cons.mp h).2
    by_cases hxy : le x y
    · simp only [insertSorted, if_pos hxy]
      refine List.Pairwise.cons ?_ h
      intro b hb
      rcases List.mem_cons.mp hb with rfl | hb
      · exact hxy
      · exact ltrans x y b hxy (hhd b hb)
    · simp only [insertSorted, if_neg hxy]
      refine List.Pairwise.cons ?_ (ih htl)
      intro b hb
      have hb' := (insertSorted_perm le x ys).mem_iff.mp hb
      rcases List.mem_cons.mp hb' with rfl | hb'
      · rcases ltotal b y with hby | hyb
        · exact absurd hby hxy
        · exact hyb
      · exact hhd b hb'

theorem pairwise_sortBy {le : α → α → Bool}
    (ltrans : ∀ a b c, le a b = true → le b c = true → le a c = true)
    (ltotal : ∀ a b, le a b = true ∨ le b a = true) (l : List α) :
    (sortBy le l).Pairwise fun a b => le a b = true := by
  induction l with
  | nil => simp [sortBy]
  | cons x xs ih => exact pairwise_insertSorted ltrans ltotal x ih

theorem area_le_of_pzLe {a b : OutRow} (h : pzLe a b)
    (hpid : a.parcel.pid = b.parcel.pid) :
    b.overlap_area.getD 0 ≤ a.overlap_area.getD 0 := by
  simp only [pzLe, Bool.or_eq_true, Bool.and_eq_true, decide_eq_true_eq] at h
  omega

theorem exists_matching_candidate {proj : Reproj} {parcels : Layer Parcel}
    {zoning : Layer ZRow} {p : Parcel} {z : ZRow}
    (hp : p ∈ parcels.rows) (hz : z ∈ (reconciledZoning proj parcels zoning).rows)
    (hint : intersectsGeom p.geom z.geom) :
    ∃ c ∈ largestRows proj parcels zoning,
      c.parcel = p ∧ 0 < c.overlap_area.getD 0 := by
  obtain ⟨i, hi⟩ := List.mem_iff_getElem?.mp hp
  obtain ⟨j, hj⟩ := List.mem_iff_getElem?.mp hz
  have hjz : (j, z) ∈ (reconciledZoning proj parcels zoning).rows.enum :=
    List.mk_mem_enum_iff_getElem?.mpr hj
  have hm : (j, z) ∈ matchesFor p (reconciledZoning proj parcels zoning).rows :=
    mem_matchesFor.mpr ⟨hjz, hint⟩
  have hmne : matchesFor p (reconciledZoning proj parcels zoning).rows ≠ [] :=
    List.ne_nil_of_mem hm
  have hr : (⟨i, p, some j, some ⟨z.code⟩⟩ : JRow) ∈
      rowsFor i p (reconciledZoning proj parcels zoning).rows := by
    unfold rowsFor
    simp only [if_neg hmne, List.mem_map]
    exact ⟨(j, z), hm, rfl⟩
  have hrs : (⟨i, p, some j, some ⟨z.code⟩⟩ : JRow) ∈
      sjoinLeftIntersects parcels.rows (reconciledZoning proj parcels zoning).rows :=
    mem_sjoinLeftIntersects.mpr ⟨(i, p), List.mk_mem_enum_iff_getElem?.mpr hi, hr⟩
  refine ⟨_, List.mem_map_of_mem _ hrs, rfl, ?_⟩
  rw [dropIR, get_overlap_area_of_match hj]
  simpa using Finset.card_pos.mpr hint

/-- C1: for every parcel intersecting at least one zoning polygon,
`join_parcels_zoning` retains a row for the `PARCELID` of that parcel which is one
of the candidate joined rows, carries zoning attributes, and whose
`overlap_area` is the maximum over all candidate matches for that
`PARCELID`. -/
theorem join_parcels_zoning_keeps_max_overlap
    (proj : Reproj) (parcels : Layer Parcel) (zoning : Layer ZRow) (p : Parcel)
    (hp : p ∈ parcels.rows)
    (hz : ∃ z ∈ (reconciledZoning proj parcels zoning).rows,
      intersectsGeom p.geom z.geom) :
    ∃ L, join_parcels_zoning proj parcels zoning = Except.ok L ∧
      ∃ r ∈ L.rows,
        r.parcel.pid = p.pid ∧
        r ∈ largestRows proj parcels zoning ∧
        r.zattrs.isSome ∧
        ∀ c ∈ largestRows proj parcels zoning, c.parcel.pid = p.pid →
          c.overlap_area.getD 0 ≤ r.overlap_area.getD 0 := by
  obtain ⟨z, hzm, hint⟩ := hz
  obtain ⟨c0, hc0, hc0p, hc0pos⟩ := exists_matching_candidate hp hzm hint
  have hperm : List.Perm (sortBy pzLe (largestRows proj parcels zoning))
      (largestRows proj parcels zoning) :=
    sortBy_perm pzLe (largestRows proj parcels zoning)
  have hc0S : c0 ∈ sortBy pzLe (largestRows proj parcels zoning) :=
    hperm.mem_iff.mpr hc0
  obtain ⟨r, hrD, hrk⟩ :=
    @exists_mem_dedupFrom _ _ _ (fun r : OutRow => r.parcel.pid) [] _ _
      hc0S (by simp)
  have hsorted : (sortBy pzLe (largestRows proj parcels zoning)).Pairwise
      (fun a b => pzLe a b = true) :=
    pairwise_sortBy pzLe_trans pzLe_total (largestRows proj parcels zoning)
  have hrpid : r.parcel.pid = p.pid := by
    rw [hrk, hc0p]
  have hmax : ∀ c ∈ largestRows proj parcels zoning, c.parcel.pid = p.pid →
      c.overlap_area.getD 0 ≤ r.overlap_area.getD 0 := by
    intro c hc hcp
    have hcS : c ∈ sortBy pzLe (largestRows proj parcels zoning) :=
      hperm.mem_iff.mpr hc
    have hkey : c.parcel.pid = r.parcel.pid := by rw [hcp, hrpid]
    rcases dedupFrom_pairwise_rel hsorted hrD hcS hkey with rfl | hle
    · exact le_refl _
    · exact area_le_of_pzLe hle (by rw [hrpid, hcp])
  have hrC : r ∈ largestRows proj parcels zoning :=
    hperm.mem_iff.mp (mem_of_mem_dedupFrom hrD)
  have hrpos : 0 < r.overlap_area.getD 0 :=
    lt_of_lt_of_le hc0pos (hmax c0 hc0 (by rw [hc0p]))
  have hrsome : r.zattrs.isSome := by
    rcases zattrs_or_zero_of_mem_largestRows hrC with h | h
    · exact h
    · rw [h] at hrpos; simp at hrpos
  exact ⟨_, rfl, r, hrD, hrpid, hrC, hrsome, hmax⟩

/-- Sample parcel layer: one parcel with id 1 over cell 0. -/
def parcelsW1 : Layer Parcel := ⟨0, [⟨1, {0}⟩]⟩

/-- Sample zoning layer: one UV district over cell 0. -/
def zoningW1 : Layer ZRow := ⟨0, [⟨some "UV", {0}⟩]⟩

/-- Witness for the C1 theorem at a concrete input. -/
theorem join_parcels_zoning_keeps_max_overlap_witness :
    ∃ L, join_parcels_zoning projId parcelsW1 zoningW1 = Except.ok L ∧
      ∃ r ∈ L.rows,
        r.parcel.pid = (Parcel.mk 1 {0}).pid ∧
        r ∈ largestRows projId parcelsW1 zoningW1 ∧
        r.zattrs.isSome ∧
        ∀ c ∈ largestRows projId parcelsW1 zoningW1,
          c.parcel.pid = (Parcel.mk 1 {0}).pid →
            c.overlap_area.getD 0 ≤ r.overlap_area.getD 0 :=
  join_parcels_zoning_keeps_max_overlap projId parcelsW1 zoningW1 ⟨1, {0}⟩
    (by decide) (by decide)

theorem parcel_mem_of_mem_sjoin {parcels : List Parcel} {zoning : List ZRow}
    {r : JRow} (h : r ∈ sjoinLeftIntersects parcels zoning) : r.parcel ∈ parcels := by
  obtain ⟨⟨i, p⟩, hip, hr⟩ := mem_sjoinLeftIntersects.mp h
  have hp : p ∈ parcels :=
    List.mem_iff_getElem?.mpr ⟨i, List.mk_mem_enum_iff_getElem?.mp hip⟩
  rw [(parcel_of_mem_rowsFor hr).1]
  exact hp

theorem parcel_mem_of_mem_largestRows {proj : Reproj} {parcels : Layer Parcel}
    {zoning : Layer ZRow} {c : OutRow} (h : c ∈ largestRows proj parcels zoning) :
    c.parcel ∈ parcels.rows := by
  simp only [largestRows, List.mem_map] at h
  obtain ⟨r, hr, rfl⟩ := h
  exact parcel_mem_of_mem_sjoin hr

theorem exists_largest_of_mem_parcels {proj : Reproj} {parcels : Layer Parcel}
    {zoning : Layer ZRow} {p : Parcel} (hp : p ∈ parcels.rows) :
    ∃ c ∈ largestRows proj parcels zoning, c.parcel = p := by
  obtain ⟨r, hr, hrp⟩ :=
    @exists_row_of_mem_parcels _ ((reconciledZoning proj parcels zoning).rows) _ hp
  exact ⟨_, List.mem_map_of_mem _ hr, hrp⟩

/-- C2 (corrected): the output of `join_parcels_zoning` never repeats a
`PARCELID`, and when the input parcel rows have pairwise-distinct `PARCELID`s
the output row count equals the input row count. (As originally stated the
cardinality equation fails for inputs with duplicated `PARCELID`s, see the
counterexample.) -/
theorem join_parcels_zoning_cardinality
    (proj : Reproj) (parcels : Layer Parcel) (zoning : Layer ZRow) :
    ∃ L, join_parcels_zoning proj parcels zoning = Except.ok L ∧
      (L.rows.map fun r => r.parcel.pid).Nodup ∧
      ((parcels.rows.map Parcel.pid).Nodup →
        L.rows.length = parcels.rows.length) := by
  refine ⟨_, rfl, ?_, ?_⟩
  · exact (List.pairwise_map).mpr
      (pairwise_ne_dedupFrom (fun r : OutRow => r.parcel.pid) []
        (sortBy pzLe (largestRows proj parcels zoning)))
  · intro hin
    have hperm := sortBy_perm pzLe (largestRows proj parcels zoning)
    have hKout : ((dedupBy (fun r : OutRow => r.parcel.pid)
        (sortBy pzLe (largestRows proj parcels zoning))).map
          fun r => r.parcel.pid).Nodup :=
      (List.pairwise_map).mpr
        (pairwise_ne_dedupFrom (fun r : OutRow => r.parcel.pid) [] _)
    have hmemiff : ∀ k,
        k ∈ ((dedupBy (fun r : OutRow => r.parcel.pid)
          (sortBy pzLe (largestRows proj parcels zoning))).map
            fun r => r.parcel.pid) ↔
        k ∈ parcels.rows.map Parcel.pid := by
      intro k
      constructor
      · intro hk
        obtain ⟨r, hr, rfl⟩ := List.mem_map.mp hk
        have hrC : r ∈ largestRows proj parcels zoning :=
          hperm.mem_iff.mp (mem_of_mem_dedupFrom hr)
        exact List.mem_map.mpr ⟨r.parcel, parcel_mem_of_mem_largestRows hrC, rfl⟩
      · intro hk
        obtain ⟨p, hp, rfl⟩ := List.mem_map.mp hk
        obtain ⟨c, hcC, hcp⟩ :=
          @exists_largest_of_mem_parcels proj parcels zoning p hp
        obtain ⟨y, hy, hky⟩ :=
          @exists_mem_dedupFrom _ _ _ (fun r : OutRow => r.parcel.pid) [] _ _
            (hperm.mem_iff.mpr hcC) (by simp)
        exact List.mem_map.mpr ⟨y, hy, by rw [hky, hcp]⟩
    have hperm2 := List.perm_of_nodup_nodup_toFinset_eq hKout hin
      (Finset.ext fun k => by
        simp only [List.mem_toFinset]
        exact hmemiff k)
    simpa using hperm2.length_eq

/-- Parcel layer with a duplicated `PARCELID`. -/
def parcelsDup : Layer Parcel := ⟨0, [⟨1, {0}⟩, ⟨1, {1}⟩]⟩

/-- Empty zoning layer. -/
def zoningEmpty : Layer ZRow := ⟨0, []⟩

/-- Counterexample to C2 as stated: with two input rows sharing `PARCELID` 1,
`join_parcels_zoning` returns one row, not two. -/
theorem join_parcels_zoning_cardinality_cex :
    (join_parcels_zoning projId parcelsDup zoningEmpty).toOption.map
        (fun L => L.rows.length) = some 1 ∧
      parcelsDup.rows.length = 2 := by decide

/-- Witness for the corrected C2 theorem at a concrete input. -/
theorem join_parcels_zoning_cardinality_witness :
    (parcelsW1.rows.map Parcel.pid).Nodup ∧
    ∃ L, join_parcels_zoning projId parcelsW1 zoningW1 = Except.ok L ∧
      L.rows.length = parcelsW1.rows.length := by
  obtain ⟨L, hL, _, hlen⟩ :=
    join_parcels_zoning_cardinality projId parcelsW1 zoningW1
  exact ⟨by decide, L, hL, hlen (by decide)⟩

theorem matchesFor_eq_nil_iff {p : Parcel} {zoning : List ZRow} :
    matchesFor p zoning = [] ↔
      ∀ z ∈ zoning, ¬ intersectsGeom p.geom z.geom := by
  simp only [matchesFor, List.filter_eq_nil_iff, decide_eq_true_eq]
  constructor
  · intro h z hz hint
    obtain ⟨j, hj⟩ := List.mem_iff_getElem?.mp hz
    exact h (j, z) (List.mk_mem_enum_iff_getElem?.mpr hj) hint
  · intro h iz hiz hint
    obtain ⟨j, z⟩ := iz
    exact h z (List.mem_iff_getElem?.mpr ⟨j, List.mk_mem_enum_iff_getElem?.mp hiz⟩)
      hint

theorem null_row_of_no_matches {proj : Reproj} {parcels : Layer Parcel}
    {zoning : Layer ZRow} {c : OutRow} (hc : c ∈ largestRows proj parcels zoning)
    (hm : matchesFor c.parcel (reconciledZoning proj parcels zoning).rows = []) :
    c.zattrs = none ∧ c.overlap_area = some 0 := by
  simp only [largestRows, List.mem_map] at hc
  obtain ⟨r, hr, rfl⟩ := hc
  obtain ⟨⟨i, p⟩, _, hrow⟩ := mem_sjoinLeftIntersects.mp hr
  rcases shape_of_mem_rowsFor hrow with rfl | ⟨jz, hjz, rfl⟩
  · exact ⟨rfl, by simp [dropIR, get_overlap_area]⟩
  · exact absurd hjz (by simp [dropIR] at hm; simp [hm])

/-- C3 (corrected): when the input parcel rows have pairwise-distinct
`PARCELID`s, every parcel intersecting no zoning polygon is kept in the
output of `join_parcels_zoning` with null zoning attributes and zero
`overlap_area`. (As originally stated the claim fails for inputs with
duplicated `PARCELID`s, see the counterexample.) -/
theorem join_parcels_zoning_keeps_unmatched
    (proj : Reproj) (parcels : Layer Parcel) (zoning : Layer ZRow) (p : Parcel)
    (hnodup : (parcels.rows.map Parcel.pid).Nodup)
    (hp : p ∈ parcels.rows)
    (hno : ∀ z ∈ (reconciledZoning proj parcels zoning).rows,
      ¬ intersectsGeom p.geom z.geom) :
    ∃ L, join_parcels_zoning proj parcels zoning = Except.ok L ∧
      ∃ r ∈ L.rows, r.parcel = p ∧ r.zattrs = none ∧ r.overlap_area = some 0 := by
  refine ⟨_, rfl, ?_⟩
  obtain ⟨c, hcC, hcp⟩ := @exists_largest_of_mem_parcels proj parcels zoning p hp
  have hperm := sortBy_perm pzLe (largestRows proj parcels zoning)
  obtain ⟨r, hr, hkr⟩ :=
    @exists_mem_dedupFrom _ _ _ (fun r : OutRow => r.parcel.pid) [] _ _
      (hperm.mem_iff.mpr hcC) (by simp)
  have hrC : r ∈ largestRows proj parcels zoning :=
    hperm.mem_iff.mp (mem_of_mem_dedupFrom hr)
  have hrp : r.parcel = p :=
    List.inj_on_of_nodup_map hnodup (parcel_mem_of_mem_largestRows hrC) hp
      (by rw [hkr, hcp])
  have hm : matchesFor r.parcel (reconciledZoning proj parcels zoning).rows = [] := by
    rw [hrp]
    exact matchesFor_eq_nil_iff.mpr hno
  obtain ⟨hz, ha⟩ := null_row_of_no_matches hrC hm
  exact ⟨r, hr, hrp, hz, ha⟩

/-- Parcel layer where two rows share `PARCELID` 1; the first has empty
geometry, the second covers cell 0. -/
def parcelsMix : Layer Parcel := ⟨0, [⟨1, ∅⟩, ⟨1, {0}⟩]⟩

/-- Counterexample to C3 as stated: the first parcel of `parcelsMix`
intersects no zoning polygon, yet no output row retains it (the matched row
of the duplicated `PARCELID` wins the deduplication). -/
theorem join_parcels_zoning_keeps_unmatched_cex :
    (Parcel.mk 1 ∅) ∈ parcelsMix.rows ∧
    (∀ z ∈ (reconciledZoning projId parcelsMix zoningW1).rows,
      ¬ intersectsGeom (Parcel.mk 1 ∅).geom z.geom) ∧
    (join_parcels_zoning projId parcelsMix zoningW1).toOption.map
        (fun L => L.rows.all fun r => decide (r.parcel ≠ Parcel.mk 1 ∅)) =
      some true := by decide

/-- Witness for the corrected C3 theorem at a concrete input. -/
theorem join_parcels_zoning_keeps_unmatched_witness :
    ∃ L, join_parcels_zoning projId parcelsW1 zoningEmpty = Except.ok L ∧
      ∃ r ∈ L.rows, r.parcel = ⟨1, {0}⟩ ∧ r.zattrs = none ∧
        r.overlap_area = some 0 :=
  join_parcels_zoning_keeps_unmatched projId parcelsW1 zoningEmpty ⟨1, {0}⟩
    (by decide) (by decide) (by decide)

/-! Helper lemmas about the tract attachment join. -/

theorem mem_attach_iff {proj : Reproj} {parcels : Layer Parcel}
    {tracts : TractLayer} {tf : Option (List String)} {r : PTRow} :
    r ∈ (attach_tract_data_to_parcels proj parcels tracts tf).rows ↔
      ∃ p ∈ parcels.rows,
        r ∈ attachRowsFor
          (keptTractFields (reconciledTracts proj parcels tracts) tf)
          (reconciledTracts proj parcels tracts) p := by
  simp [attach_tract_data_to_parcels]

theorem parcel_of_mem_attachRowsFor {keep : List String} {tr : TractLayer}
    {p : Parcel} {r : PTRow} (h : r ∈ attachRowsFor keep tr p) : r.parcel = p := by
  unfold attachRowsFor at h
  by_cases hm : tractMatches tr p = []
  · simp only [if_pos hm, List.mem_singleton] at h
    subst h; rfl
  · simp only [if_neg hm, List.mem_map] at h
    obtain ⟨t, _, rfl⟩ := h
    rfl

theorem shape_of_mem_attachRowsFor {keep : List String} {tr : TractLayer}
    {p : Parcel} {r : PTRow} (h : r ∈ attachRowsFor keep tr p) :
    (r = ⟨p, none⟩ ∧ ∀ t ∈ tr.rows, ¬ withinGeom p.geom t.geom) ∨
      ∃ t ∈ tr.rows, withinGeom p.geom t.geom ∧
        r = ⟨p, some ⟨(tractSubsetRow keep t).geoid, (tractSubsetRow keep t).fields⟩⟩ := by
  unfold attachRowsFor at h
  by_cases hm : tractMatches tr p = []
  · simp only [if_pos hm, List.mem_singleton] at h
    refine Or.inl ⟨h, ?_⟩
    intro t ht hw
    have : t ∈ tractMatches tr p :=
      List.mem_filter.mpr ⟨ht, by simpa using hw⟩
    simp [hm] at this
  · simp only [if_neg hm, List.mem_map] at h
    obtain ⟨t, ht, rfl⟩ := h
    have ht' := List.mem_filter.mp ht
    exact Or.inr ⟨t, ht'.1, by simpa using ht'.2, rfl⟩

theorem filter_within_length_le_one {l : List TractRow} {g : Geom}
    (hdisj : l.Pairwise fun t1 t2 => Disjoint t1.geom t2.geom) :
    (l.filter fun t => decide (withinGeom g t.geom)).length ≤ 1 := by
  induction hdisj with
  | nil => simp
  | cons hhd htl ih =>
    rename_i a t
    by_cases ha : decide (withinGeom g a.geom) = true
    · have hnil : t.filter (fun t0 => decide (withinGeom g t0.geom)) = [] := by
        rw [List.filter_eq_nil_iff]
        intro b hb hwb
        have hwa : withinGeom g a.geom := by simpa using ha
        have hwb' : withinGeom g b.geom := by simpa using hwb
        obtain ⟨x, hx⟩ := hwa.1
        exact absurd (Finset.mem_inter.mpr ⟨hwa.2 hx, hwb'.2 hx⟩)
          (by simp [Finset.disjoint_left.mp (hhd b hb) (hwa.2 hx)])
      simp [List.filter_cons, ha, hnil]
    · simp only [List.filter_cons, ha, if_false, Bool.false_eq_true]
      exact ih

theorem attachRowsFor_length_eq_one {keep : List String} {tr : TractLayer}
    {p : Parcel}
    (hdisj : tr.rows.Pairwise fun t1 t2 => Disjoint t1.geom t2.geom) :
    (attachRowsFor keep tr p).length = 1 := by
  unfold attachRowsFor
  by_cases hm : tractMatches tr p = []
  · simp [hm]
  · simp only [if_neg hm, List.length_map]
    have hle : (tractMatches tr p).length ≤ 1 :=
      filter_within_length_le_one hdisj
    have hpos : 0 < (tractMatches tr p).length :=
      List.length_pos.mpr hm
    omega

theorem length_flatMap_eq_length {l : List α} {f : α → List β}
    (h : ∀ a ∈ l, (f a).length = 1) : (l.flatMap f).length = l.length := by
  induction l with
  | nil => simp
  | cons a t ih =>
    simp only [List.flatMap_cons, List.length_append, List.length_cons,
      h a (List.mem_cons_self a t)]
    rw [ih fun b hb => h b (List.mem_cons_of_mem a hb)]
    omega

theorem eq_of_within_both {l : List TractRow} {g : Geom}
    (hdisj : l.Pairwise fun t1 t2 => Disjoint t1.geom t2.geom)
    {t1 t2 : TractRow} (h1 : t1 ∈ l) (h2 : t2 ∈ l)
    (hw1 : withinGeom g t1.geom) (hw2 : withinGeom g t2.geom) : t1 = t2 := by
  by_contra hne
  have hsym : Symmetric fun a b : TractRow => Disjoint a.geom b.geom :=
    fun a b h => h.symm
  have hd := List.Pairwise.forall hsym hdisj h1 h2 hne
  obtain ⟨x, hx⟩ := hw1.1
  exact (Finset.disjoint_left.mp hd (hw1.2 hx)) (hw2.2 hx)

/-- C4 (corrected): when the tract polygons are pairwise disjoint, the output
of `attach_tract_data_to_parcels` has one row per input parcel row, and no
parcel carries more than one tract `GEOID`. (As originally stated the claim
fails when two tract polygons overlap and both contain a parcel: the `within`
left join then emits one row per containing tract and nothing deduplicates
them, see the counterexample.) -/
theorem attach_tract_at_most_one_geoid
    (proj : Reproj) (parcels : Layer Parcel) (tracts : TractLayer)
    (tf : Option (List String))
    (hdisj : (reconciledTracts proj parcels tracts).rows.Pairwise
      fun t1 t2 => Disjoint t1.geom t2.geom) :
    (attach_tract_data_to_parcels proj parcels tracts tf).rows.length =
      parcels.rows.length ∧
    ∀ r1 ∈ (attach_tract_data_to_parcels proj parcels tracts tf).rows,
      ∀ r2 ∈ (attach_tract_data_to_parcels proj parcels tracts tf).rows,
        r1.parcel = r2.parcel →
          r1.tract.map TractData.geoid = r2.tract.map TractData.geoid := by
  constructor
  · exact length_flatMap_eq_length fun p _ => attachRowsFor_length_eq_one hdisj
  · intro r1 h1 r2 h2 hpp
    obtain ⟨p1, hp1, hr1⟩ := mem_attach_iff.mp h1
    obtain ⟨p2, hp2, hr2⟩ := mem_attach_iff.mp h2
    have e1 := parcel_of_mem_attachRowsFor hr1
    have e2 := parcel_of_mem_attachRowsFor hr2
    have hp12 : p1 = p2 := by rw [← e1, ← e2, hpp]
    subst hp12
    rcases shape_of_mem_attachRowsFor hr1 with ⟨rfl, hno1⟩ | ⟨t1, ht1, hw1, rfl⟩
    · rcases shape_of_mem_attachRowsFor hr2 with ⟨rfl, _⟩ | ⟨t2, ht2, hw2, rfl⟩
      · rfl
      · exact absurd hw2 (hno1 t2 ht2)
    · rcases shape_of_mem_attachRowsFor hr2 with ⟨rfl, hno2⟩ | ⟨t2, ht2, hw2, rfl⟩
      · exact absurd hw1 (hno2 t1 ht1)
      · have ht12 := eq_of_within_both hdisj ht1 ht2 hw1 hw2
        subst ht12
        rfl

/-- Tract layer with two overlapping polygons, both covering cell 0. -/
def tractsOverlap : TractLayer := ⟨0, [], [⟨10, {0}, []⟩, ⟨20, {0, 1}, []⟩]⟩

/-- Counterexample to C4 as stated: the single parcel of `parcelsW1` lies
within both overlapping tracts, so its `PARCELID` appears in two output rows
with two different `GEOID`s. -/
theorem attach_tract_at_most_one_geoid_cex :
    ((attach_tract_data_to_parcels projId parcelsW1 tractsOverlap none).rows.map
        fun r => (r.parcel.pid, r.tract.map TractData.geoid)) =
      [(1, some 10), (1, some 20)] ∧ (10 : Nat) ≠ 20 := by decide

/-- Tract layer with a single tract covering cell 0. -/
def tractsW : TractLayer :=
  ⟨0, ["pct_renters"], [⟨10, {0}, [("pct_renters", 40)]⟩]⟩

/-- Witness for the corrected C4 theorem at a concrete input. -/
theorem attach_tract_at_most_one_geoid_witness :
    (attach_tract_data_to_parcels projId parcelsW1 tractsW none).rows.length =
      parcelsW1.rows.length :=
  (attach_tract_at_most_one_geoid projId parcelsW1 tractsW none
    (by simp [reconciledTracts, tractsW, parcelsW1])).1

theorem reconciledTracts_cols (proj : Reproj) (parcels : Layer Parcel)
    (tracts : TractLayer) :
    (reconciledTracts proj parcels tracts).cols = tracts.cols := by
  unfold reconciledTracts tractsToCrs
  split <;> rfl

theorem reconciledTracts_fields {proj : Reproj} {parcels : Layer Parcel}
    {tracts : TractLayer} {t : TractRow}
    (h : t ∈ (reconciledTracts proj parcels tracts).rows) :
    ∃ t0 ∈ tracts.rows, t.fields = t0.fields := by
  unfold reconciledTracts at h
  split at h
  · simp only [tractsToCrs, List.mem_map] at h
    obtain ⟨t0, ht0, rfl⟩ := h
    exact ⟨t0, ht0, rfl⟩
  · exact ⟨t, h, rfl⟩

/-- C5: `attach_tract_data_to_parcels` joins parcels to tracts by the
`within` containment predicate: every attached tract datum comes from a tract
whose polygon contains the parcel, carries the `GEOID` of that tract, and its
attached columns are exactly the requested indicator names available in the
tract table; a parcel lying within no tract is kept with a fully null tract
attachment. -/
theorem attach_tract_within_contract
    (proj : Reproj) (parcels : Layer Parcel) (tracts : TractLayer)
    (tf : Option (List String))
    (hcols : ∀ t ∈ tracts.rows, t.fields.map Prod.fst = tracts.cols) :
    (∀ r ∈ (attach_tract_data_to_parcels proj parcels tracts tf).rows,
      ∀ td, r.tract = some td →
        ∃ t ∈ (reconciledTracts proj parcels tracts).rows,
          withinGeom r.parcel.geom t.geom ∧ td.geoid = t.geoid ∧
          ∀ f, f ∈ td.fields.map Prod.fst ↔
            (f ∈ tf.getD defaultTractFields ∧ f ∈ tracts.cols)) ∧
    (∀ p ∈ parcels.rows,
      (∀ t ∈ (reconciledTracts proj parcels tracts).rows,
        ¬ withinGeom p.geom t.geom) →
      (⟨p, none⟩ : PTRow) ∈
        (attach_tract_data_to_parcels proj parcels tracts tf).rows) := by
  constructor
  · intro r hr td htd
    obtain ⟨p, hp, hrow⟩ := mem_attach_iff.mp hr
    rcases shape_of_mem_attachRowsFor hrow with ⟨rfl, _⟩ | ⟨t, ht, hw, rfl⟩
    · simp at htd
    · obtain rfl : (⟨(tractSubsetRow
          (keptTractFields (reconciledTracts proj parcels tracts) tf) t).geoid,
          (tractSubsetRow
            (keptTractFields (reconciledTracts proj parcels tracts) tf) t).fields⟩ :
            TractData) = td := Option.some.inj htd
      obtain ⟨t0, ht0, hf⟩ := reconciledTracts_fields ht
      have hnames : t.fields.map Prod.fst = tracts.cols := by
        rw [hf]
        exact hcols t0 ht0
      refine ⟨t, ht, hw, rfl, ?_⟩
      intro f
      simp only [tractSubsetRow, keptTractFields, List.mem_map, List.mem_filter,
        reconciledTracts_cols, decide_eq_true_eq]
      constructor
      · rintro ⟨kv, ⟨hkv, hq⟩, rfl⟩
        refine ⟨hq.1, ?_⟩
        rw [← hnames]
        exact List.mem_map.mpr ⟨kv, hkv, rfl⟩
      · rintro ⟨hreq, hcol⟩
        have : f ∈ t.fields.map Prod.fst := by rw [hnames]; exact hcol
        obtain ⟨kv, hkv, rfl⟩ := List.mem_map.mp this
        exact ⟨kv, ⟨hkv, hreq, hcol⟩, rfl⟩
  · intro p hp hno
    have hm : tractMatches (reconciledTracts proj parcels tracts) p = [] := by
      unfold tractMatches
      rw [List.filter_eq_nil_iff]
      intro t ht hw
      exact hno t ht (by simpa using hw)
    refine List.mem_flatMap.mpr ⟨p, hp, ?_⟩
    simp [attachRowsFor, hm]

/-- Parcel layer with one parcel away from every tract. -/
def parcelsW5 : Layer Parcel := ⟨0, [⟨2, {5}⟩]⟩

/-- Witness for the C5 theorem at a concrete input: the parcel at cell 5 lies
within no tract of `tractsW` and is kept with a null tract attachment. -/
theorem attach_tract_within_contract_witness :
    (⟨⟨2, {5}⟩, none⟩ : PTRow) ∈
      (attach_tract_data_to_parcels projId parcelsW5 tractsW none).rows :=
  (attach_tract_within_contract projId parcelsW5 tractsW none (by decide)).2
    ⟨2, {5}⟩ (by decide) (by decide)

/-- C6: before the intersection or containment join, the right-hand layer is
brought into the CRS of the parcels layer — it is reprojected exactly when its CRS
differs and left alone otherwise — while the parcel CRS tags the joined
output and every output row carries an unchanged input parcel. -/
theorem crs_reconciliation
    (proj : Reproj) (parcels : Layer Parcel) (zoning : Layer ZRow)
    (tracts : TractLayer) (tf : Option (List String)) :
    (reconciledZoning proj parcels zoning).crs = parcels.crs ∧
    (zoning.crs = parcels.crs → reconciledZoning proj parcels zoning = zoning) ∧
    (zoning.crs ≠ parcels.crs →
      reconciledZoning proj parcels zoning = zoningToCrs proj parcels.crs zoning) ∧
    (reconciledTracts proj parcels tracts).crs = parcels.crs ∧
    (tracts.crs = parcels.crs → reconciledTracts proj parcels tracts = tracts) ∧
    (tracts.crs ≠ parcels.crs →
      reconciledTracts proj parcels tracts = tractsToCrs proj parcels.crs tracts) ∧
    (∀ L, sjoin_parcels_to_zd proj parcels zoning "largest" = Except.ok L →
      L.crs = parcels.crs ∧ ∀ r ∈ L.rows, r.parcel ∈ parcels.rows) ∧
    (attach_tract_data_to_parcels proj parcels tracts tf).crs = parcels.crs ∧
    (∀ r ∈ (attach_tract_data_to_parcels proj parcels tracts tf).rows,
      r.parcel ∈ parcels.rows) := by
  refine ⟨?_, ?_, ?_, ?_, ?_, ?_, ?_, rfl, ?_⟩
  · unfold reconciledZoning
    by_cases h : parcels.crs = zoning.crs
    · simp [h, zoningToCrs]
    · simp [h, zoningToCrs]
  · intro h
    unfold reconciledZoning
    simp [h]
  · intro h
    unfold reconciledZoning
    rw [if_pos fun he : parcels.crs = zoning.crs => h he.symm]
  · unfold reconciledTracts
    by_cases h : parcels.crs = tracts.crs
    · simp [h, tractsToCrs]
    · simp [h, tractsToCrs]
  · intro h
    unfold reconciledTracts
    simp [h]
  · intro h
    unfold reconciledTracts
    rw [if_pos fun he : parcels.crs = tracts.crs => h he.symm]
  · intro L hL
    have : L = ⟨parcels.crs, largestRows proj parcels zoning⟩ :=
      (Except.ok.inj hL).symm
    subst this
    exact ⟨rfl, fun r hr => parcel_mem_of_mem_largestRows hr⟩
  · intro r hr
    obtain ⟨p, hp, hrow⟩ := mem_attach_iff.mp hr
    rw [parcel_of_mem_attachRowsFor hrow]
    exact hp

/-- Zoning layer in a CRS differing from the parcel CRS. -/
def zoningCrs1 : Layer ZRow := ⟨1, [⟨some "UV", {0}⟩]⟩

/-- Witness for the C6 theorem at a concrete input with differing CRS. -/
theorem crs_reconciliation_witness :
    reconciledZoning projId parcelsW1 zoningCrs1 =
      zoningToCrs projId parcelsW1.crs zoningCrs1 ∧
    (reconciledZoning projId parcelsW1 zoningCrs1).crs = parcelsW1.crs := by
  have h := crs_reconciliation projId parcelsW1 zoningCrs1 tractsW none
  exact ⟨h.2.2.1 (by decide), h.1⟩

/-- Behaviour the pandas percentage expression `num / denom * 100` exhibits:
the exact ratio when the denominator is nonzero, NaN for `0 / 0`, and
positive infinity for `x / 0` with `x > 0`. -/
def PctOk (n d : Rat) (x : PdVal) : Prop :=
  (d ≠ 0 → x = PdVal.val (n / d * 100)) ∧
  (d = 0 → n = 0 → x = PdVal.nan) ∧
  (d = 0 → 0 < n → x = PdVal.inf)

theorem pct_ok (n d : Rat) : PctOk n d (pctCol n d) := by
  have h100 : (0 : Rat) < 100 := by norm_num
  refine ⟨?_, ?_, ?_⟩
  · intro hd
    simp [pctCol, pdDiv, pdMulPos, hd]
  · intro hd hn
    simp [pctCol, pdDiv, pdMulPos, hd, hn]
  · intro hd hn
    simp [pctCol, pdDiv, pdMulPos, hd, hn, h100]

/-- C7 (corrected): every percentage indicator of `compute_acs_indicators`
equals numerator over denominator times 100 when the denominator is nonzero;
a zero denominator yields NaN only when the numerator is also zero, and
positive infinity when the numerator is positive — never a raised error. (As
originally stated, the claim that a zero denominator always gives NaN fails:
pandas integer division `x / 0` with `x > 0` is `inf`, see the
counterexample.) -/
theorem compute_acs_indicators_ratios (df : AcsRow) :
    PctOk (df.rent_30_34 + df.rent_35_39 + df.rent_40_49 + df.rent_50_plus)
      df.total_renter_households (compute_acs_indicators df).rent_burdened_pct ∧
    PctOk df.below_poverty df.poverty_universe
      (compute_acs_indicators df).poverty_rate ∧
    PctOk df.renter_occupied df.tenure_total
      (compute_acs_indicators df).pct_renters ∧
    PctOk df.owner_occupied df.tenure_total
      (compute_acs_indicators df).pct_homeowners ∧
    PctOk df.no_vehicle df.total_households
      (compute_acs_indicators df).no_vehicle_pct ∧
    PctOk df.public_transit_total df.total_workers
      (compute_acs_indicators df).public_transit_pct ∧
    PctOk df.drove df.total_workers (compute_acs_indicators df).drove_pct ∧
    PctOk df.bike df.total_workers (compute_acs_indicators df).bike_pct ∧
    PctOk df.walked df.total_workers (compute_acs_indicators df).walked_pct ∧
    PctOk df.commuter_rail df.total_workers
      (compute_acs_indicators df).commuter_rail_pct ∧
    PctOk df.light_rail df.total_workers
      (compute_acs_indicators df).light_rail_pct ∧
    PctOk df.worked_home df.total_workers
      (compute_acs_indicators df).worked_home_pct ∧
    PctOk (df.units_1_detached + df.units_1_attached) df.units_total
      (compute_acs_indicators df).pct_single_family ∧
    PctOk (df.units_2 + df.units_3_4) df.units_total
      (compute_acs_indicators df).pct_small_multifamily ∧
    PctOk (df.units_5_9 + df.units_10_19) df.units_total
      (compute_acs_indicators df).pct_medium_multifamily ∧
    PctOk (df.units_20_49 + df.units_50_plus) df.units_total
      (compute_acs_indicators df).pct_large_multifamily ∧
    PctOk (df.units_mobile + df.units_other) df.units_total
      (compute_acs_indicators df).pct_other ∧
    PctOk df.housing_units_vacant df.housing_units_total
      (compute_acs_indicators df).vacancy_rate ∧
    PctOk df.white df.race_total (compute_acs_indicators df).pct_white ∧
    PctOk df.black df.race_total (compute_acs_indicators df).pct_black ∧
    PctOk df.asian df.race_total (compute_acs_indicators df).pct_asian ∧
    PctOk df.hispanic df.hisp_total (compute_acs_indicators df).pct_latino ∧
    PctOk (df.bachelors + df.masters + df.professional + df.doctorate)
      df.edu_total (compute_acs_indicators df).pct_college_plus :=
  ⟨pct_ok _ _, pct_ok _ _, pct_ok _ _, pct_ok _ _, pct_ok _ _, pct_ok _ _,
   pct_ok _ _, pct_ok _ _, pct_ok _ _, pct_ok _ _, pct_ok _ _, pct_ok _ _,
   pct_ok _ _, pct_ok _ _, pct_ok _ _, pct_ok _ _, pct_ok _ _, pct_ok _ _,
   pct_ok _ _, pct_ok _ _, pct_ok _ _, pct_ok _ _, pct_ok _ _⟩

/-- ACS row with every raw count equal to one. -/
def acsOnes : AcsRow :=
  { total_renter_households := 1, rent_30_34 := 1, rent_35_39 := 1,
    rent_40_49 := 1, rent_50_plus := 1, poverty_universe := 1,
    below_poverty := 1, total_households := 1, no_vehicle := 1,
    tenure_total := 1, owner_occupied := 1, renter_occupied := 1,
    total_workers := 1, drove := 1, public_transit_total := 1, bike := 1,
    walked := 1, commuter_rail := 1, light_rail := 1, worked_home := 1,
    units_total := 1, units_1_detached := 1, units_1_attached := 1,
    units_2 := 1, units_3_4 := 1, units_5_9 := 1, units_10_19 := 1,
    units_20_49 := 1, units_50_plus := 1, units_mobile := 1, units_other := 1,
    housing_units_total := 1, housing_units_vacant := 1, race_total := 1,
    white := 1, black := 1, asian := 1, hisp_total := 1, hispanic := 1,
    edu_total := 1, bachelors := 1, masters := 1, professional := 1,
    doctorate := 1 }

/-- ACS row with one person below poverty but an empty poverty universe. -/
def acsCex : AcsRow := { acsOnes with poverty_universe := 0 }

/-- Counterexample to C7 as stated: with numerator 1 and denominator 0 the
poverty rate is positive infinity, not NaN. -/
theorem compute_acs_indicators_ratios_cex :
    acsCex.poverty_universe = 0 ∧
    (compute_acs_indicators acsCex).poverty_rate = PdVal.inf ∧
    (compute_acs_indicators acsCex).poverty_rate ≠ PdVal.nan := by decide

/-- Witness for the corrected C7 theorem at a concrete input. -/
theorem compute_acs_indicators_ratios_witness :
    acsOnes.poverty_universe ≠ 0 ∧
    (compute_acs_indicators acsOnes).poverty_rate = PdVal.val (1 / 1 * 100) :=
  ⟨by decide, (compute_acs_indicators_ratios acsOnes).2.1.1 (by decide)⟩

/-! Helper lemmas about association-list lookup, modelling Python dict
lookup (the two zoning dictionaries have no duplicate keys). -/

theorem mem_of_lookup_eq_some {l : List (String × String)} {k v : String}
    (h : l.lookup k = some v) : (k, v) ∈ l := by
  induction l with
  | nil => simp [List.lookup] at h
  | cons kv t ih =>
    obtain ⟨k', v'⟩ := kv
    by_cases hk : (k == k') = true
    · simp only [List.lookup, hk] at h
      have hkk : k = k' := by simpa using hk
      subst hkk
      simp only [Option.some.injEq] at h
      subst h
      exact List.mem_cons_self _ _
    · simp only [List.lookup, Bool.not_eq_true] at h
      rw [Bool.not_eq_true] at hk
      rw [hk] at h
      exact List.mem_cons_of_mem _ (ih h)

theorem lookup_eq_none_of_forall_not_mem {l : List (String × String)}
    {k : String} (h : ∀ v, (k, v) ∉ l) : l.lookup k = none := by
  induction l with
  | nil => rfl
  | cons kv t ih =>
    obtain ⟨k', v'⟩ := kv
    have hne : (k == k') = false := by
      rw [beq_eq_false_iff_ne]
      intro he
      subst he
      exact h v' (List.mem_cons_self _ _)
    simp only [List.lookup, hne]
    exact ih fun v hv => h v (List.mem_cons_of_mem _ hv)

theorem lookup_eq_some_of_mem {l : List (String × String)} {k v : String}
    (hnd : (l.map Prod.fst).Nodup) (h : (k, v) ∈ l) : l.lookup k = some v := by
  induction l with
  | nil => simp at h
  | cons kv t ih =>
    obtain ⟨k', v'⟩ := kv
    have hnd' := List.nodup_cons.mp hnd
    rcases List.mem_cons.mp h with heq | hmem
    · obtain ⟨rfl, rfl⟩ := Prod.mk.injEq .. ▸ heq
      simp [List.lookup]
    · have hk : (k == k') = false := by
        rw [beq_eq_false_iff_ne]
        intro he
        subst he
        exact hnd'.1 (List.mem_map.mpr ⟨(k, v), hmem, rfl⟩)
      simp only [List.lookup, hk]
      exact ih hnd'.2 hmem

theorem zoning_classification_keys_nodup :
    (zoning_classification.map Prod.fst).Nodup := by decide

theorem zoning_abb_keys_nodup : (zoning_abb.map Prod.fst).Nodup := by decide

/-- C8: zoning classification is a pure total table lookup: a missing code
classifies as Unknown, a code whose stripped form is a key of the dictionary
classifies as the entry of that key, and any other code classifies as Other; the
same for `abbreviate_zoning` over its dictionary. -/
theorem classify_zoning_total_lookup (code : Option String) :
    (code = none → classify_zoning code = "Unknown" ∧
      abbreviate_zoning code = "Unknown") ∧
    (∀ s v, code = some s → (pyStrip s, v) ∈ zoning_classification →
      classify_zoning code = v) ∧
    (∀ s, code = some s → (∀ v, (pyStrip s, v) ∉ zoning_classification) →
      classify_zoning code = "Other") ∧
    (∀ s v, code = some s → (pyStrip s, v) ∈ zoning_abb →
      abbreviate_zoning code = v) ∧
    (∀ s, code = some s → (∀ v, (pyStrip s, v) ∉ zoning_abb) →
      abbreviate_zoning code = "Other") := by
  refine ⟨?_, ?_, ?_, ?_, ?_⟩
  · rintro rfl
    exact ⟨rfl, rfl⟩
  · rintro s v rfl hv
    simp [classify_zoning,
      lookup_eq_some_of_mem zoning_classification_keys_nodup hv]
  · rintro s rfl hv
    simp [classify_zoning, lookup_eq_none_of_forall_not_mem hv]
  · rintro s v rfl hv
    simp [abbreviate_zoning, lookup_eq_some_of_mem zoning_abb_keys_nodup hv]
  · rintro s rfl hv
    simp [abbreviate_zoning, lookup_eq_none_of_forall_not_mem hv]

/-- Witness for the C8 theorem at concrete codes. -/
theorem classify_zoning_total_lookup_witness :
    classify_zoning (some " R-1-1 ") = "Residential" ∧
    classify_zoning (some "ZZZ") = "Other" ∧
    classify_zoning none = "Unknown" ∧
    abbreviate_zoning (some "UV") = "Urban Village" :=
  ⟨(classify_zoning_total_lookup (some " R-1-1 ")).2.1 " R-1-1 " "Residential"
      rfl (by decide),
   (classify_zoning_total_lookup (some "ZZZ")).2.2.1 "ZZZ" rfl
      (by
        intro v hv
        have hk : pyStrip "ZZZ" ∈ zoning_classification.map Prod.fst :=
          List.mem_map.mpr ⟨_, hv, rfl⟩
        revert hk
        decide),
   ((classify_zoning_total_lookup none).1 rfl).1,
   (classify_zoning_total_lookup (some "UV")).2.2.2.1 "UV" "Urban Village"
      rfl (by decide)⟩

/-- Exact range of `classify_zoning`. -/
def classRange : List String :=
  ["Residential", "Commercial", "Industrial", "Mixed Use", "Special Purpose",
   "Other", "Unknown"]

/-- C9: the range of `classify_zoning` is exactly the seven class names and
never contains the string Urban Village; consequently, on any parcel table
whose `zoning_class` column was produced by `classify_zoning` (as the
pipeline builds it), the Urban Village subset of `summarize_parcels` is empty
and its `uv_parcels` count is zero. -/
theorem classify_zoning_range_no_urban_village :
    (∀ c, classify_zoning c ∈ classRange) ∧
    (∀ v ∈ classRange, ∃ c, classify_zoning c = v) ∧
    (∀ c, classify_zoning c ≠ "Urban Village") ∧
    (∀ (parcels : List PMRow) (buffer : Finset Nat),
      (∀ p ∈ parcels, ∃ c, p.zoning_class = classify_zoning c) →
      (summarize_parcels parcels buffer).2.1 = [] ∧
      (summarize_parcels parcels buffer).2.2.uv_parcels = 0) := by
  have h1 : ∀ c, classify_zoning c ∈ classRange := by
    intro c
    match c with
    | none => decide
    | some s =>
      simp only [classify_zoning]
      cases h : zoning_classification.lookup (pyStrip s) with
      | none => decide
      | some v =>
        have hall : ∀ kv ∈ zoning_classification, kv.2 ∈ classRange := by decide
        simpa using hall _ (mem_of_lookup_eq_some h)
  have h3 : ∀ c, classify_zoning c ≠ "Urban Village" := by
    intro c hc
    have hmem := h1 c
    rw [hc] at hmem
    revert hmem
    decide
  refine ⟨h1, ?_, h3, ?_⟩
  · intro v hv
    simp only [classRange, List.mem_cons, List.not_mem_nil, or_false] at hv
    rcases hv with rfl | rfl | rfl | rfl | rfl | rfl | rfl
    · exact ⟨some "R-1-1", by decide⟩
    · exact ⟨some "C-1", by decide⟩
    · exact ⟨some "LI", by decide⟩
    · exact ⟨some "UV", by decide⟩
    · exact ⟨some "OS", by decide⟩
    · exact ⟨some "ZZZ", by decide⟩
    · exact ⟨none, by decide⟩
  · intro parcels buffer hall
    have huv : (summarize_parcels parcels buffer).2.1 = [] := by
      simp only [summarize_parcels]
      rw [List.filter_eq_nil_iff]
      intro p hp hcl
      have hpp : p ∈ parcels := (List.mem_filter.mp hp).1
      obtain ⟨c, hc⟩ := hall p hpp
      exact h3 c (by rw [← hc]; simpa using hcl)
    refine ⟨huv, ?_⟩
    have hlen : (summarize_parcels parcels buffer).2.2.uv_parcels =
        (summarize_parcels parcels buffer).2.1.length := rfl
    rw [hlen, huv]
    rfl

/-- Witness for the C9 theorem at a concrete input: a parcel table classified
by `classify_zoning` yields an empty Urban Village subset. -/
theorem classify_zoning_range_no_urban_village_witness :
    (summarize_parcels [⟨{0}, classify_zoning (some "UV")⟩] {0}).2.1 = [] ∧
    (summarize_parcels [⟨{0}, classify_zoning (some "UV")⟩] {0}).2.2.uv_parcels
      = 0 :=
  (classify_zoning_range_no_urban_village).2.2.2
    [⟨{0}, classify_zoning (some "UV")⟩] {0}
    (fun p hp => by
      rw [List.mem_singleton] at hp
      exact ⟨some "UV", by rw [hp]⟩)

theorem length_filter_key_le_one [DecidableEq β] {key : α → β} {l : List α}
    (h : l.Pairwise fun a b => key a ≠ key b) (k : β) :
    (l.filter fun a => decide (key a = k)).length ≤ 1 := by
  induction h with
  | nil => simp
  | cons hhd htl ih =>
    rename_i a t
    by_cases ha : key a = k
    · have hnil : t.filter (fun b => decide (key b = k)) = [] := by
        rw [List.filter_eq_nil_iff]
        intro b hb hbk
        have h2 : key b = k := by simpa using hbk
        exact hhd b hb (ha.trans h2.symm)
      simp [List.filter_cons, ha, hnil]
    · simp only [List.filter_cons, decide_eq_true_eq, ha, if_false]
      exact ih

theorem filter_leftIdx_map_dropIR (l : List JRow) (k : Nat) :
    ((l.map fun j => dropIR j none).filter fun r => decide (r.leftIdx = k)) =
      (l.filter fun j => decide (j.leftIdx = k)).map fun j => dropIR j none := by
  induction l with
  | nil => rfl
  | cons a t ih =>
    have hidx : (dropIR a none).leftIdx = a.leftIdx := rfl
    by_cases ha : a.leftIdx = k
    · simp [List.filter_cons, hidx, ha, ih]
    · simp [List.filter_cons, hidx, ha, ih]

/-- C10: `sjoin_parcels_to_zd` fails exactly when `how` is neither
`"largest"` nor `"first"`; with `how="largest"` every joined row carries an
`overlap_area` value, and with `how="first"` the result keeps, per parcel
index, only the first joined row with that index, dropping `index_right` in
both cases (the output row type has no `index_right` column). -/
theorem sjoin_parcels_to_zd_how_contract
    (proj : Reproj) (parcels : Layer Parcel) (zoning : Layer ZRow)
    (how : String) :
    ((∃ e, sjoin_parcels_to_zd proj parcels zoning how = Except.error e) ↔
      (how ≠ "largest" ∧ how ≠ "first")) ∧
    (how = "largest" →
      sjoin_parcels_to_zd proj parcels zoning how =
        Except.ok ⟨parcels.crs, largestRows proj parcels zoning⟩ ∧
      ∀ r ∈ largestRows proj parcels zoning, r.overlap_area.isSome) ∧
    (how = "first" →
      sjoin_parcels_to_zd proj parcels zoning how =
        Except.ok ⟨parcels.crs, firstRows proj parcels zoning⟩ ∧
      (∀ k, ((firstRows proj parcels zoning).filter
          fun r => decide (r.leftIdx = k)).length ≤ 1) ∧
      (∀ r ∈ firstRows proj parcels zoning, ∃ j,
        (sjoinLeftIntersects parcels.rows
            (reconciledZoning proj parcels zoning).rows).find?
            (fun x => decide (x.leftIdx = j.leftIdx)) = some j ∧
        r = dropIR j none)) := by
  refine ⟨?_, ?_, ?_⟩
  · by_cases h1 : how = "largest"
    · simp [sjoin_parcels_to_zd, h1]
    · by_cases h2 : how = "first"
      · simp [sjoin_parcels_to_zd, h1, h2]
      · simp [sjoin_parcels_to_zd, h1, h2]
  · intro h
    subst h
    refine ⟨by simp [sjoin_parcels_to_zd], ?_⟩
    intro r hr
    simp only [largestRows, List.mem_map] at hr
    obtain ⟨j, _, rfl⟩ := hr
    simp [dropIR]
  · intro h
    subst h
    refine ⟨by simp [sjoin_parcels_to_zd], ?_, ?_⟩
    · intro k
      unfold firstRows dedupBy
      rw [filter_leftIdx_map_dropIR, List.length_map]
      exact length_filter_key_le_one
        (pairwise_ne_dedupFrom (fun r : JRow => r.leftIdx) [] _) k
    · intro r hr
      unfold firstRows at hr
      simp only [List.mem_map] at hr
      obtain ⟨j, hj, rfl⟩ := hr
      exact ⟨j, find?_of_mem_dedupFrom hj, rfl⟩

/-- Witness for the C10 theorem at concrete inputs, exercising all three
branches of the `how` argument. -/
theorem sjoin_parcels_to_zd_how_contract_witness :
    (∃ e, sjoin_parcels_to_zd projId parcelsW1 zoningW1 "middle" =
      Except.error e) ∧
    sjoin_parcels_to_zd projId parcelsW1 zoningW1 "largest" =
      Except.ok ⟨parcelsW1.crs, largestRows projId parcelsW1 zoningW1⟩ ∧
    sjoin_parcels_to_zd projId parcelsW1 zoningW1 "first" =
      Except.ok ⟨parcelsW1.crs, firstRows projId parcelsW1 zoningW1⟩ :=
  ⟨(sjoin_parcels_to_zd_how_contract projId parcelsW1 zoningW1 "middle").1.mpr
      (by decide),
   ((sjoin_parcels_to_zd_how_contract projId parcelsW1 zoningW1
      "largest").2.1 rfl).1,
   ((sjoin_parcels_to_zd_how_contract projId parcelsW1 zoningW1
      "first").2.2 rfl).1⟩
